import Mathlib

/-!
# Verification of the dfiles navigation and search engines

Shallow embedding of the `dfiles` VS Code extension's two core engines:

* the project content-search pipeline (`SearchProject` in `recent-files.ts`
  and the `buildExcludeGlob` helper in `utils/buildExcludeGlob.ts`), and
* the interactive directory navigator (`FindFile` in `find-file.ts`).

JavaScript strings are modelled by Lean `String`, with the JavaScript
string methods (`trim`, `toLowerCase`, `split`, `startsWith`, `endsWith`,
`includes`, `indexOf`, `slice`) embedded as executable functions over the
underlying character list (all inputs of interest are ASCII, where these
agree with the JavaScript UTF-16 semantics).  Filesystem paths are modelled
as lists of path segments.  Fallible filesystem calls are modelled by
`Option`/`Except` arguments supplied to the embedded operation.
-/

namespace DFiles

/-! ## JavaScript string primitives -/

/-- The whitespace characters stripped by `String.prototype.trim` (the ASCII
ones, which cover all inputs of interest). -/
def isJsWhitespace (c : Char) : Bool :=
  c == ' ' || c == '\t' || c == '\n' || c == '\r'

/-- JavaScript `String.prototype.trim`. -/
def jsTrim (s : String) : String :=
  ⟨((s.data.dropWhile isJsWhitespace).reverse.dropWhile isJsWhitespace).reverse⟩

/-- JavaScript `String.prototype.toLowerCase` (ASCII case folding). -/
def jsToLower (s : String) : String :=
  ⟨s.data.map Char.toLower⟩

/-- JavaScript `String.prototype.length`. -/
def jsLength (s : String) : Nat :=
  s.data.length

/-- JavaScript `String.prototype.slice(n)` (drop the first `n` units). -/
def jsDrop (s : String) (n : Nat) : String :=
  ⟨s.data.drop n⟩

/-- JavaScript `String.prototype.startsWith`. -/
def jsStartsWith (s pre : String) : Bool :=
  pre.data.isPrefixOf s.data

/-- JavaScript `String.prototype.endsWith`. -/
def jsEndsWith (s suf : String) : Bool :=
  suf.data.isSuffixOf s.data

/-- JavaScript `String.prototype.includes(c)` for a single character. -/
def jsContainsChar (s : String) (c : Char) : Bool :=
  s.data.contains c

/-- JavaScript `String.prototype.split(sep)` for a one-character separator,
on character lists.  `"".split(sep)` is `[""]`, and separators at the ends
produce empty pieces, exactly as in JavaScript. -/
def splitChars (sep : Char) : List Char → List (List Char)
  | [] => [[]]
  | c :: t =>
      match splitChars sep t with
      | [] => [[]]
      | h :: r => if c == sep then [] :: h :: r else (c :: h) :: r

/-- JavaScript `String.prototype.split(sep)` for a one-character separator. -/
def jsSplit (s : String) (sep : Char) : List String :=
  (splitChars sep s.data).map String.mk

/-- JavaScript `Array.prototype.join(sep)`. -/
def jsJoin (sep : String) : List String → String
  | [] => ""
  | [x] => x
  | x :: xs => x ++ sep ++ jsJoin sep xs

/-- JavaScript `String.prototype.indexOf` for a substring, on character
lists: the index of the first occurrence of `pat` in `s`, or `none` when
there is no occurrence (`-1` in JavaScript). -/
def firstIndexOf (s pat : List Char) : Option Nat :=
  match s with
  | [] => if pat.isEmpty then some 0 else none
  | _ :: t => if pat.isPrefixOf s then some 0 else (firstIndexOf t pat).map (· + 1)

/-- JavaScript `String.prototype.includes` for a substring
(`indexOf ≠ -1`). -/
def strIncludes (s pat : String) : Bool :=
  (firstIndexOf s.data pat.data).isSome

/-! ## ExcludeMatcher: `utils/buildExcludeGlob.ts` -/

/-- The `DEFAULT_EXCLUDES` constant of `buildExcludeGlob.ts`. -/
def DEFAULT_EXCLUDES : List String :=
  ["**/node_modules/**", "**/.git/**", "**/dist/**", "**/out/**", "**/.next/**",
   "**/build/**", "**/*.min.js", "**/*.map", "**/*.lock"]

/-- The per-line translation of the `for (const line of ...)` loop body of
`buildExcludeGlob`: skip blank and `#`-comment lines, strip one leading `/`,
skip negated (`!`-prefixed) rules, wrap wildcard-free rules as
`**/<rule>/**`, keep wildcarded rules verbatim. -/
def translateLine (line : String) : Option String :=
  let trimmed := jsTrim line
  if trimmed = "" then none
  else if jsStartsWith trimmed "#" then none
  else
    let pattern := if jsStartsWith trimmed "/" then jsDrop trimmed 1 else trimmed
    if jsStartsWith pattern "!" then none
    else if jsContainsChar pattern '*' then some pattern
    else some ("**/" ++ pattern ++ "/**")

/-- The exclude list built by `buildExcludeGlob root`: the defaults followed
by the translated lines of the root ignore file (`none` models an absent or
unreadable `.gitignore`, in which case only the defaults remain). -/
def buildExcludeList (gitIgnoreContent : Option String) : List String :=
  DEFAULT_EXCLUDES ++
    match gitIgnoreContent with
    | none => []
    | some content => (jsSplit content '\n').filterMap translateLine

/-- The combined glob pattern returned by `buildExcludeGlob`:
`\x7b` ++ the excludes joined by commas ++ `\x7d`. -/
def buildExcludeGlob (gitIgnoreContent : Option String) : String :=
  "\x7b" ++ jsJoin "," (buildExcludeList gitIgnoreContent) ++ "\x7d"

/-! ## DirectoryNavigator data model: `find-file.ts` -/

/-- Structure `DirectoryEntry` of `find-file.ts`. -/
structure DirectoryEntry where
  name : String
  isDirectory : Bool
deriving DecidableEq, Repr

/-- Method `FindFile.filterCachedEntries`: trim and lowercase the input, compute the
hidden-files toggle from a leading `.` of the filter, then filter the cached
entries. -/
def filterCachedEntries (cachedEntries : List DirectoryEntry) (value : String) :
    List DirectoryEntry :=
  let filter := jsToLower (jsTrim value)
  let showHidden := jsStartsWith filter "."
  cachedEntries.filter fun entry =>
    if jsStartsWith entry.name "." && !showHidden then false
    else if filter = "" then !jsStartsWith entry.name "."
    else strIncludes (jsToLower entry.name) filter

/-! ## DirectoryLister: `FindFile.readDirectory` -/

/-- The comparator of `FindFile.readDirectory`'s `.sort`: directories before
files; within the same kind, ascending by name (`localeCompare` modelled as
the lexicographic order on the name's character sequence). -/
def entryLE (a b : DirectoryEntry) : Prop :=
  (a.isDirectory = true ∧ b.isDirectory = false) ∨
    (a.isDirectory = b.isDirectory ∧ a.name.data ≤ b.name.data)

instance : DecidableRel entryLE := fun _ _ => inferInstanceAs (Decidable (_ ∨ _))

instance : IsTotal DirectoryEntry entryLE := by
  constructor
  intro a b
  by_cases hab : a.isDirectory = b.isDirectory
  · rcases le_total a.name.data b.name.data with h | h
    · exact Or.inl (Or.inr ⟨hab, h⟩)
    · exact Or.inr (Or.inr ⟨hab.symm, h⟩)
  · cases ha : a.isDirectory <;> cases hb : b.isDirectory
    · exact absurd (ha.trans hb.symm) hab
    · exact Or.inr (Or.inl ⟨hb, ha⟩)
    · exact Or.inl (Or.inl ⟨ha, hb⟩)
    · exact absurd (ha.trans hb.symm) hab

instance : IsTrans DirectoryEntry entryLE := by
  constructor
  intro a b c hab hbc
  rcases hab with ⟨ha, hb⟩ | ⟨hk, hn⟩
  · rcases hbc with ⟨hb', _⟩ | ⟨hk', _⟩
    · exact absurd hb' (by simp [hb])
    · exact Or.inl ⟨ha, hk' ▸ hb⟩
  · rcases hbc with ⟨hb', hc'⟩ | ⟨hk', hn'⟩
    · exact Or.inl ⟨hk.trans hb', hc'⟩
    · exact Or.inr ⟨hk.trans hk', le_trans hn hn'⟩

/-- The sort of `FindFile.readDirectory` (a stable sort under the
`entryLE` comparator, as JavaScript `Array.prototype.sort` is). -/
def sortEntries (entries : List DirectoryEntry) : List DirectoryEntry :=
  List.insertionSort entryLE entries

/-- Method `FindFile.readDirectory`: the raw `readdir` listing (`none` models a
directory that cannot be read, in which case `readdir` throws) is mapped to
`DirectoryEntry` values and sorted. -/
def readDirectory (raw : Option (List DirectoryEntry)) :
    Except Unit (List DirectoryEntry) :=
  match raw with
  | none => .error ()
  | some entries => .ok (sortEntries entries)

/-! ## DirectoryNavigator state: `FindFile` -/

/-- The mutable session state of `FindFile` relevant to navigation:
`currentDir` (as a segment list), `cachedEntries`, `previousValue`. -/
structure NavState where
  currentDir : List String
  cachedEntries : List DirectoryEntry
  previousValue : String
deriving DecidableEq, Repr

/-- Method `FindFile.refreshDirectory`: re-reads the current directory into the
entry cache and resets the input to the blank sentinel; on a read failure it
surfaces an error message (the returned flag) and renders an empty list. -/
def refreshDirectory (st : NavState) (raw : Option (List DirectoryEntry)) :
    NavState × Bool :=
  match raw with
  | none => ({ st with cachedEntries := [], previousValue := " " }, true)
  | some entries =>
      ({ st with cachedEntries := sortEntries entries, previousValue := " " }, false)

/-- Method `FindFile.deleteSelected`: nothing happens without a highlighted item or
without confirmation; the `stat`/`rm`/`unlink` call is modelled by the
`fsDelete` argument, and on its failure the `catch` branch surfaces an error
message (the returned flag) without refreshing; on success the directory is
refreshed from `reread`. -/
def deleteSelected (st : NavState) (selected : Option String) (confirmed : Bool)
    (fsDelete : Except Unit Unit) (reread : Option (List DirectoryEntry)) :
    NavState × Bool :=
  match selected with
  | none => (st, false)
  | some _ =>
      if !confirmed then (st, false)
      else
        match fsDelete with
        | .error _ => (st, true)
        | .ok _ => refreshDirectory st reread

/-- Method `FindFile.renameSelected`: the input prompt is modelled by `newName`
(`none` = cancelled); an empty or unchanged name is a no-op; the `rename`
call is modelled by `fsRename`, and on its failure the `catch` branch
surfaces an error message (the returned flag) without refreshing. -/
def renameSelected (st : NavState) (selected : Option String)
    (newName : Option String) (fsRename : Except Unit Unit)
    (reread : Option (List DirectoryEntry)) : NavState × Bool :=
  match selected with
  | none => (st, false)
  | some oldName =>
      match newName with
      | none => (st, false)
      | some n =>
          if n = "" || n = oldName then (st, false)
          else
            match fsRename with
            | .error _ => (st, true)
            | .ok _ => refreshDirectory st reread

/-- Method `FindFile.handlePathTraversal`: split the trimmed input on `/`; when the
first segment is non-empty and case-insensitively matches a cached
subdirectory name, descend by joining the *typed* first segment onto the
current directory, refresh, and re-seed the input with the remaining
segments (sentinel-prefixed).  Returns `none` when traversal is not
triggered (the `return false` paths). -/
def handlePathTraversal (st : NavState) (value : String)
    (reread : Option (List DirectoryEntry)) : Option (NavState × Bool) :=
  let trimmed := jsTrim value
  let segments := jsSplit trimmed '/'
  if segments.length < 2 then none
  else
    let firstSegment := segments.headI
    if firstSegment = "" then none
    else
      match st.cachedEntries.find?
          (fun e => e.isDirectory && jsToLower e.name == jsToLower firstSegment) with
      | none => none
      | some _ =>
          let st1 := { st with currentDir := st.currentDir ++ [firstSegment] }
          match refreshDirectory st1 reread with
          | (st2, errFlag) =>
              let remaining := jsJoin "/" (segments.drop 1)
              let newValue := if remaining ≠ "" then " " ++ remaining else " "
              some ({ st2 with previousValue := newValue }, errFlag)

/-! ## Filesystem model and `FindFile.handleCreate`

Paths are lists of segments.  `path.join` followed by the implicit
normalisation of separators is modelled by appending the non-empty pieces of
the input split on `/`; `path.dirname` is `List.dropLast`. -/

/-- The non-empty segments of a relative path string. -/
def splitPath (s : String) : List String :=
  (jsSplit s '/').filter (· ≠ "")

/-- Function `path.join(base, input)` on the segment model. -/
def joinPath (base : List String) (input : String) : List String :=
  base ++ splitPath input

/-- A snapshot of the filesystem: the directories and the files that exist,
each named by its absolute segment list. -/
structure FS where
  dirs : List (List String)
  files : List (List String)
deriving DecidableEq, Repr

/-- Call `fs.promises.access` succeeding: the path exists (as directory or file). -/
def pathExists (fs : FS) (p : List String) : Bool :=
  fs.dirs.contains p || fs.files.contains p

/-- Test `stat(...).isDirectory()` on an existing path. -/
def isDirIn (fs : FS) (p : List String) : Bool :=
  fs.dirs.contains p

/-- All non-empty prefixes of a path, the innermost last. -/
def pathPrefixes (p : List String) : List (List String) :=
  (List.range p.length).map (fun k => p.take (k + 1))

/-- Call `fs.promises.mkdir(p, recursive: true)`: every prefix of `p` exists as a
directory afterwards. -/
def mkdirRecursive (fs : FS) (p : List String) : FS :=
  { fs with dirs := fs.dirs ++ pathPrefixes p }

/-- Call `fs.promises.writeFile(p, empty)`: `p` exists as a file afterwards. -/
def writeFile (fs : FS) (p : List String) : FS :=
  { fs with files := fs.files ++ [p] }

/-- What `FindFile.handleCreate` did: navigated into a directory, or opened
(after possibly creating) a file. -/
inductive CreateOutcome where
  | navigatedTo (dir : List String)
  | openedFile (file : List String)
deriving DecidableEq, Repr

/-- Method `FindFile.handleCreate` on the trimmed input value: an existing target is
navigated into (directory) or opened (file); otherwise a trailing `/` creates
and enters a directory chain; an inner `/` creates the intermediate
directories and an empty file at the final segment and opens it; a plain name
creates and opens an empty file in the current directory. -/
def handleCreate (fs : FS) (currentDir : List String) (inputValue : String) :
    FS × CreateOutcome :=
  let fullPath := joinPath currentDir inputValue
  if pathExists fs fullPath then
    if isDirIn fs fullPath then (fs, .navigatedTo fullPath)
    else (fs, .openedFile fullPath)
  else if jsEndsWith inputValue "/" then
    (mkdirRecursive fs fullPath, .navigatedTo fullPath)
  else if jsContainsChar inputValue '/' then
    (writeFile (mkdirRecursive fs fullPath.dropLast) fullPath, .openedFile fullPath)
  else
    (writeFile fs fullPath, .openedFile fullPath)

/-! ## SearchEngine: `SearchProject` -/

/-- Constant `MAX_FILE_SIZE` (512 KiB). -/
def MAX_FILE_SIZE : Nat := 512 * 1024

/-- Constant `MAX_MATCHES_PER_FILE`. -/
def MAX_MATCHES_PER_FILE : Nat := 10

/-- Constant `MAX_TOTAL_RESULTS`. -/
def MAX_TOTAL_RESULTS : Nat := 100

/-- Constant `MIN_QUERY_LENGTH`. -/
def MIN_QUERY_LENGTH : Nat := 2

/-- Structure `SearchResult` of `recent-files.ts` (the `SearchProject` module). -/
structure SearchResult where
  file : String
  line : Nat
  column : Nat
  content : String
deriving DecidableEq, Repr

/-- The line loop of `SearchProject.searchFile`: walk the lines with the
1-based index `i + 1`, stop once `remaining` (the per-file budget
`MAX_MATCHES_PER_FILE - results.length`) is exhausted, and for each line
record the first case-insensitive occurrence of the query, 1-based. -/
def scanLines (filePath query : String) :
    List String → Nat → Nat → List SearchResult
  | [], _, _ => []
  | line :: rest, i, remaining =>
      if remaining = 0 then []
      else
        match firstIndexOf (jsToLower line).data (jsToLower query).data with
        | some column =>
            { file := filePath, line := i + 1, column := column + 1,
              content := jsTrim line } ::
              scanLines filePath query rest (i + 1) (remaining - 1)
        | none => scanLines filePath query rest (i + 1) remaining

/-- Method `SearchProject.searchFile` with the filesystem interactions made
explicit: `statSize` and `statIsFile` model the `stat` result and `content`
the file text.  Oversized or non-regular files, and contents holding a null
byte, yield no results; otherwise the content is split on newlines and
scanned. -/
def searchFile (filePath : String) (statSize : Nat) (statIsFile : Bool)
    (content : String) (query : String) : List SearchResult :=
  if MAX_FILE_SIZE < statSize then []
  else if !statIsFile then []
  else if jsContainsChar content '\x00' then []
  else scanLines filePath query (jsSplit content '\n') 0 MAX_MATCHES_PER_FILE

/-- One candidate file as seen by the scan: path, `stat` data, text. -/
structure FileData where
  path : String
  statSize : Nat
  statIsFile : Bool
  content : String
deriving Repr

/-- The result accumulation of an uncancelled `SearchProject.performSearch`:
files contribute in enumeration order, and the inner push loop stops as soon
as the running total reaches `MAX_TOTAL_RESULTS` (the concurrency batching
preserves both the order and this cap, so it is flattened here). -/
def performSearchResults (files : List FileData) (query : String) :
    List SearchResult :=
  files.foldl
    (fun acc f =>
      acc ++ (searchFile f.path f.statSize f.statIsFile f.content query).take
        (MAX_TOTAL_RESULTS - acc.length))
    []

/-! ## `SearchProject.onValueChange` and the debounce timer -/

/-- The mutable state of `SearchProject` relevant to `onValueChange`:
whether the quick pick is open, the rendered items, the result list, and the
pending debounce timer carrying the query it would run. -/
structure SPState where
  quickPickOpen : Bool
  items : List SearchResult
  results : List SearchResult
  debounceTimer : Option String
deriving DecidableEq, Repr

/-- Method `SearchProject.onValueChange`: clear any pending debounce timer; when the
trimmed query is shorter than `MIN_QUERY_LENGTH`, clear items and results
synchronously and return without scheduling; otherwise schedule the debounced
search for the trimmed query. -/
def onValueChange (st : SPState) (value : String) : SPState :=
  let st1 := { st with debounceTimer := none }
  let query := jsTrim value
  if jsLength query < MIN_QUERY_LENGTH then
    if st1.quickPickOpen then { st1 with items := [], results := [] } else st1
  else
    { st1 with debounceTimer := some query }

/-! ## Generation-stamped cancellation: `SearchProject.performSearch`

The asynchronous interleaving of `performSearch` invocations is modelled by
a trace of atomic events over the shared `searchId`/`results`/`items`
fields.  Each JavaScript await-free section that touches shared state is one
event; the generation checks (`this.searchId !== currentSearchId`) guard the
publishing events exactly as in the source. -/

/-- The shared mutable fields of `SearchProject` touched by the scan. -/
structure GenState where
  searchId : Nat
  results : List SearchResult
  committed : List SearchResult
deriving DecidableEq, Repr

/-- Atomic events of the scan protocol:
* `newSearch` — the entry of `performSearch`: `++this.searchId` and
  `this.results = []` (the new search captures the incremented id);
* `pushResults c rs` — the batch loop pushing one scanned file's results,
  guarded by `this.searchId === c` and capped at `MAX_TOTAL_RESULTS`;
* `commit c` — the final publication of `this.results` to the quick-pick
  items, guarded by `this.searchId === c`. -/
inductive GenEvent where
  | newSearch
  | pushResults (captured : Nat) (rs : List SearchResult)
  | commit (captured : Nat)

/-- One atomic step of the scan protocol. -/
def applyEvent (st : GenState) : GenEvent → GenState
  | .newSearch => { st with searchId := st.searchId + 1, results := [] }
  | .pushResults c rs =>
      if st.searchId = c then
        { st with
          results := st.results ++ rs.take (MAX_TOTAL_RESULTS - st.results.length) }
      else st
  | .commit c =>
      if st.searchId = c then { st with committed := st.results } else st

/-- Run a trace of events. -/
def runEvents (st : GenState) (events : List GenEvent) : GenState :=
  events.foldl applyEvent st

/-- The candidate set of spec Scenario 2: `file1` with 2 matching lines,
`file2` with none, `file3` with 12 matching lines. -/
def scenarioFiles : List FileData :=
  [⟨"file1", 18, true, "func a\nnope\nfunc b"⟩,
   ⟨"file2", 12, true, "nothing\nhere"⟩,
   ⟨"file3", 95, true,
     "func 1\nfunc 2\nfunc 3\nfunc 4\nfunc 5\nfunc 6\nfunc 7\nfunc 8\nfunc 9\nfunc 10\nfunc 11\nfunc 12"⟩]

/-! ## Helper lemmas -/

theorem firstIndexOf_spec {s pat : List Char} {n : Nat}
    (h : firstIndexOf s pat = some n) :
    pat.isPrefixOf (s.drop n) = true ∧
      ∀ m < n, pat.isPrefixOf (s.drop m) = false := by
  induction s generalizing n with
  | nil =>
      unfold firstIndexOf at h
      by_cases hp : pat.isEmpty
      · simp [hp] at h
        subst h
        constructor
        · cases pat with
          | nil => rfl
          | cons c t => simp [List.isEmpty] at hp
        · intro m hm; omega
      · simp [hp] at h
  | cons c t ih =>
      unfold firstIndexOf at h
      by_cases hp : pat.isPrefixOf (c :: t) = true
      · simp [hp] at h
        subst h
        exact ⟨hp, fun m hm => absurd hm (Nat.not_lt_zero m)⟩
      · simp [hp] at h
        obtain ⟨k, hk, hn⟩ := h
        obtain ⟨h1, h2⟩ := ih hk
        subst hn
        refine ⟨h1, ?_⟩
        intro m hm
        cases m with
        | zero =>
            simpa using Bool.not_eq_true _ ▸ (by simpa using hp)
        | succ j =>
            exact h2 j (by omega)

theorem scanLines_length_le (fp q : String) (lines : List String)
    (i remaining : Nat) :
    (scanLines fp q lines i remaining).length ≤ remaining := by
  induction lines generalizing i remaining with
  | nil => simp [scanLines]
  | cons line rest ih =>
      simp only [scanLines]
      split
      · simp
      · split
        · simp only [List.length_cons]
          have := ih (i + 1) (remaining - 1)
          omega
        · exact le_trans (ih (i + 1) remaining) le_rfl

theorem scanLines_mem {fp q : String} {lines : List String} {i remaining : Nat}
    {r : SearchResult} (h : r ∈ scanLines fp q lines i remaining) :
    i + 1 ≤ r.line ∧ r.file = fp ∧ 1 ≤ r.column ∧
      ∃ l, lines.get? (r.line - 1 - i) = some l ∧ r.content = jsTrim l ∧
        firstIndexOf (jsToLower l).data (jsToLower q).data =
          some (r.column - 1) := by
  induction lines generalizing i remaining with
  | nil => simp [scanLines] at h
  | cons line rest ih =>
      simp only [scanLines] at h
      split at h
      · simp at h
      · split at h
        next column heq =>
          rcases List.mem_cons.mp h with heq' | hmem
          · subst heq'
            refine ⟨le_rfl, rfl, by simp, line, ?_, rfl, ?_⟩
            · simp
            · simpa using heq
          · obtain ⟨h1, h2, h3, l, h4, h5, h6⟩ := ih hmem
            refine ⟨by omega, h2, h3, l, ?_, h5, h6⟩
            have hstep : r.line - 1 - i = (r.line - 1 - (i + 1)) + 1 := by omega
            rw [hstep, List.get?_cons_succ]
            exact h4
        next heq =>
          obtain ⟨h1, h2, h3, l, h4, h5, h6⟩ := ih h
          refine ⟨by omega, h2, h3, l, ?_, h5, h6⟩
          have hstep : r.line - 1 - i = (r.line - 1 - (i + 1)) + 1 := by omega
          rw [hstep, List.get?_cons_succ]
          exact h4

theorem scanLines_pairwise (fp q : String) (lines : List String)
    (i remaining : Nat) :
    (scanLines fp q lines i remaining).Pairwise (fun a b => a.line < b.line) := by
  induction lines generalizing i remaining with
  | nil => simp [scanLines]
  | cons line rest ih =>
      simp only [scanLines]
      split
      · simp
      · split
        · refine List.Pairwise.cons ?_ (ih (i + 1) (remaining - 1))
          intro r hr'
          have := (scanLines_mem hr').1
          simpa using this
        · exact ih (i + 1) remaining

theorem searchId_le_applyEvent (st : GenState) (e : GenEvent) :
    st.searchId ≤ (applyEvent st e).searchId := by
  cases e with
  | newSearch => simp [applyEvent]
  | pushResults c rs =>
      simp only [applyEvent]
      split <;> simp
  | commit c =>
      simp only [applyEvent]
      split <;> simp

theorem searchId_le_runEvents (st : GenState) (events : List GenEvent) :
    st.searchId ≤ (runEvents st events).searchId := by
  induction events generalizing st with
  | nil => simp [runEvents]
  | cons e rest ih =>
      calc st.searchId ≤ (applyEvent st e).searchId := searchId_le_applyEvent st e
        _ ≤ (runEvents (applyEvent st e) rest).searchId := ih (applyEvent st e)

theorem searchId_lt_runEvents {st : GenState} {events : List GenEvent}
    (h : GenEvent.newSearch ∈ events) :
    st.searchId < (runEvents st events).searchId := by
  induction events generalizing st with
  | nil => simp at h
  | cons e rest ih =>
      rcases List.mem_cons.mp h with heq | hmem
      · subst heq
        calc st.searchId < (applyEvent st .newSearch).searchId := by
              simp [applyEvent]
          _ ≤ (runEvents (applyEvent st .newSearch) rest).searchId :=
              searchId_le_runEvents _ rest
      · calc st.searchId ≤ (applyEvent st e).searchId := searchId_le_applyEvent st e
          _ < (runEvents (applyEvent st e) rest).searchId := ih hmem

theorem applyEvent_stale (st : GenState) (c : Nat) (rs : List SearchResult)
    (h : st.searchId ≠ c) :
    applyEvent st (.pushResults c rs) = st ∧ applyEvent st (.commit c) = st := by
  constructor
  · simp only [applyEvent]
    rw [if_neg h]
  · simp only [applyEvent]
    rw [if_neg h]

theorem refreshDirectory_currentDir (st : NavState)
    (raw : Option (List DirectoryEntry)) :
    (refreshDirectory st raw).1.currentDir = st.currentDir := by
  cases raw <;> rfl

/-! ## Claim theorems -/

/-- C1: in any interleaving of the scan protocol, if a second search
(`newSearch`, i.e. a `performSearch` triggered by `onDidChangeValue` /
`onQueryChanged`) starts after search Q1 captured its generation and before
Q1 publishes, then Q1's publication attempts — the batch-loop result pushes
and the final commit to the item list, both guarded by comparing the
captured generation with the live one — are discarded: they leave the shared
state unchanged. -/
theorem c1_stale_search_never_commits (st0 : GenState) (mid : List GenEvent)
    (rs : List SearchResult) (hq2 : GenEvent.newSearch ∈ mid) :
    applyEvent (runEvents (applyEvent st0 .newSearch) mid)
        (.pushResults (applyEvent st0 .newSearch).searchId rs) =
      runEvents (applyEvent st0 .newSearch) mid ∧
    applyEvent (runEvents (applyEvent st0 .newSearch) mid)
        (.commit (applyEvent st0 .newSearch).searchId) =
      runEvents (applyEvent st0 .newSearch) mid :=
  applyEvent_stale _ _ rs (searchId_lt_runEvents hq2).ne'

/-- C1 witness: a concrete two-search interleaving in which the first
search's push and commit are both no-ops. -/
theorem c1_witness :
    applyEvent (runEvents (applyEvent ⟨0, [], []⟩ .newSearch) [.newSearch])
        (.pushResults (applyEvent ⟨0, [], []⟩ .newSearch).searchId
          [⟨"f", 1, 1, "x"⟩]) =
      runEvents (applyEvent ⟨0, [], []⟩ .newSearch) [.newSearch] ∧
    applyEvent (runEvents (applyEvent ⟨0, [], []⟩ .newSearch) [.newSearch])
        (.commit (applyEvent ⟨0, [], []⟩ .newSearch).searchId) =
      runEvents (applyEvent ⟨0, [], []⟩ .newSearch) [.newSearch] :=
  c1_stale_search_never_commits ⟨0, [], []⟩ [.newSearch] [⟨"f", 1, 1, "x"⟩]
    (List.Mem.head _)

/-- C5: for any input whose trimmed length is below `MIN_QUERY_LENGTH`,
`onValueChange` synchronously clears the rendered items and the result list
and leaves no debounce timer pending (so no search is scheduled). -/
theorem c5_short_query_clears (st : SPState) (value : String)
    (hopen : st.quickPickOpen = true)
    (hshort : jsLength (jsTrim value) < MIN_QUERY_LENGTH) :
    (onValueChange st value).results = [] ∧
    (onValueChange st value).items = [] ∧
    (onValueChange st value).debounceTimer = none := by
  simp [onValueChange, hshort, hopen]

/-- C5 witness: a one-character query on a state with stale results and a
pending timer. -/
theorem c5_witness :
    (onValueChange ⟨true, [⟨"f", 1, 1, "c"⟩], [⟨"f", 1, 1, "c"⟩], some "ab"⟩
        " a ").results = [] ∧
    (onValueChange ⟨true, [⟨"f", 1, 1, "c"⟩], [⟨"f", 1, 1, "c"⟩], some "ab"⟩
        " a ").items = [] ∧
    (onValueChange ⟨true, [⟨"f", 1, 1, "c"⟩], [⟨"f", 1, 1, "c"⟩], some "ab"⟩
        " a ").debounceTimer = none :=
  c5_short_query_clears _ " a " rfl (by decide)

/-- C8: when the underlying filesystem call fails, `deleteSelected` and
`renameSelected` surface an error message (the `true` flag) and return the
navigator state unchanged: the cached entry list, current directory and
previous input value are exactly as before, so no partial mutation is
committed and no refresh happens. -/
theorem c8_failed_mutation_leaves_state (st : NavState) (name : String)
    (reread : Option (List DirectoryEntry)) :
    deleteSelected st (some name) true (.error ()) reread = (st, true) ∧
    ∀ oldName n, n ≠ "" → n ≠ oldName →
      renameSelected st (some oldName) (some n) (.error ()) reread =
        (st, true) := by
  constructor
  · simp [deleteSelected]
  · intro oldName n h1 h2
    simp [renameSelected, h1, h2]

/-- C8 witness: a failed delete of `x` and a failed rename of `x` to `y`
both leave a concrete session state untouched. -/
theorem c8_witness :
    deleteSelected ⟨["r"], [⟨"x", false⟩], " "⟩ (some "x") true (.error ())
        none = (⟨["r"], [⟨"x", false⟩], " "⟩, true) ∧
    renameSelected ⟨["r"], [⟨"x", false⟩], " "⟩ (some "x") (some "y")
        (.error ()) none = (⟨["r"], [⟨"x", false⟩], " "⟩, true) :=
  ⟨(c8_failed_mutation_leaves_state ⟨["r"], [⟨"x", false⟩], " "⟩ "x" none).1,
    (c8_failed_mutation_leaves_state ⟨["r"], [⟨"x", false⟩], " "⟩ "x" none).2
      "x" "y" (by decide) (by decide)⟩

/-- C10: whenever auto-traversal succeeds, the new current directory is the
old one joined with the *typed* first segment of the trimmed input — the
user's casing — not the cached entry's actual name. -/
theorem c10_traversal_uses_typed_segment (st : NavState) (value : String)
    (reread : Option (List DirectoryEntry)) (st' : NavState) (flag : Bool)
    (h : handlePathTraversal st value reread = some (st', flag)) :
    st'.currentDir = st.currentDir ++ [(jsSplit (jsTrim value) '/').headI] := by
  simp only [handlePathTraversal] at h
  split at h
  · exact absurd h (by simp)
  · split at h
    · exact absurd h (by simp)
    · split at h
      · exact absurd h (by simp)
      · split at h <;>
        · simp only [Option.some.injEq, Prod.mk.injEq] at h
          obtain ⟨hst, _⟩ := h
          subst hst
          simp [refreshDirectory_currentDir]

set_option maxRecDepth 16384 in
/-- C2: every non-blank, non-comment, non-negated ignore-file rule is
appended to the exclude list verbatim when it contains the wildcard `*`, and
wrapped as `**/<rule>/**` when it does not; for the ignore file holding
`build/` and `*.log`, the resulting exclude spec contains `**/build/**` and
the literal `*.log`, and both occur in the combined glob pattern string. -/
theorem c2_exclude_translation (content line pattern : String)
    (hline : line ∈ jsSplit content '\n')
    (hblank : jsTrim line ≠ "")
    (hcomment : jsStartsWith (jsTrim line) "#" = false)
    (hpat : pattern =
      if jsStartsWith (jsTrim line) "/" then jsDrop (jsTrim line) 1
      else jsTrim line)
    (hneg : jsStartsWith pattern "!" = false) :
    (jsContainsChar pattern '*' = true →
      pattern ∈ buildExcludeList (some content)) ∧
    (jsContainsChar pattern '*' = false →
      "**/" ++ pattern ++ "/**" ∈ buildExcludeList (some content)) ∧
    "**/build/**" ∈ buildExcludeList (some "build/\n*.log") ∧
    "*.log" ∈ buildExcludeList (some "build/\n*.log") ∧
    strIncludes (buildExcludeGlob (some "build/\n*.log")) "**/build/**" = true ∧
    strIncludes (buildExcludeGlob (some "build/\n*.log")) "*.log" = true := by
  have hmem : ∀ out, translateLine line = some out →
      out ∈ buildExcludeList (some content) := by
    intro out htl
    unfold buildExcludeList
    exact List.mem_append_right _ (List.mem_filterMap.mpr ⟨line, hline, htl⟩)
  refine ⟨?_, ?_, by decide, by decide, by decide, by decide⟩
  · intro hc
    refine hmem pattern ?_
    simp [translateLine, hblank, hcomment, ← hpat, hneg, hc]
  · intro hc
    refine hmem ("**/" ++ pattern ++ "/**") ?_
    simp [translateLine, hblank, hcomment, ← hpat, hneg, hc]

/-- C2 witness: the `*.log` line of the scenario ignore file is appended
verbatim. -/
theorem c2_witness : "*.log" ∈ buildExcludeList (some "build/\n*.log") :=
  (c2_exclude_translation "build/\n*.log" "*.log" "*.log" (by decide)
    (by decide) (by decide) (by decide) (by decide)).1 (by decide)

/-- C3 counterexample: with the filter text `.txt` (which starts with `.`),
the non-hidden entry `a.txt` is included in the filtered output, refuting
"only hidden entries appear when the filter starts with a dot". -/
theorem c3_counterexample :
    filterCachedEntries [⟨"a.txt", false⟩] ".txt" = [⟨"a.txt", false⟩] ∧
    jsStartsWith "a.txt" "." = false ∧
    jsStartsWith (jsToLower (jsTrim ".txt")) "." = true := by decide

/-- C3 (amended): a hidden entry (name starting with `.`) appears in the
filtered output only when the filter text starts with `.`; and when the
filter text starts with `.`, an entry — hidden or not — is included exactly
when its lowercased name contains the filter as a substring. -/
theorem c3_hidden_toggle (entries : List DirectoryEntry) (value : String) :
    (∀ e ∈ filterCachedEntries entries value,
        jsStartsWith e.name "." = true →
          jsStartsWith (jsToLower (jsTrim value)) "." = true) ∧
    (jsStartsWith (jsToLower (jsTrim value)) "." = true →
      ∀ e, e ∈ filterCachedEntries entries value ↔
        e ∈ entries ∧
          strIncludes (jsToLower e.name) (jsToLower (jsTrim value)) = true) := by
  constructor
  · intro e he hh
    simp only [filterCachedEntries] at he
    rw [List.mem_filter] at he
    obtain ⟨-, hp⟩ := he
    by_contra hns
    rw [Bool.not_eq_true] at hns
    rw [hh, hns] at hp
    simp at hp
  · intro hsh e
    have hne : jsToLower (jsTrim value) ≠ "" := by
      intro h0
      rw [h0] at hsh
      exact absurd hsh (by decide)
    simp only [filterCachedEntries]
    rw [List.mem_filter]
    constructor
    · rintro ⟨hmem, hp⟩
      refine ⟨hmem, ?_⟩
      rw [hsh] at hp
      simpa [hne] using hp
    · rintro ⟨hmem, hs⟩
      refine ⟨hmem, ?_⟩
      rw [hsh]
      simp [hne, hs]

/-- C3 witness: with filter `.e`, the hidden entry `.env` is included, by
the amended inclusion criterion. -/
theorem c3_witness :
    (⟨".env", false⟩ : DirectoryEntry) ∈
        filterCachedEntries [⟨".env", false⟩] ".e" ↔
      (⟨".env", false⟩ : DirectoryEntry) ∈
          ([⟨".env", false⟩] : List DirectoryEntry) ∧
        strIncludes (jsToLower ".env") (jsToLower (jsTrim ".e")) = true :=
  (c3_hidden_toggle [⟨".env", false⟩] ".e").2 (by decide) ⟨".env", false⟩

/-- C4: the directory listing returns exactly the entries read (a
permutation), ordered with directories before files and, within the same
kind, ascending by name; listing an empty directory yields `ok []`, not an
error. -/
theorem c4_listing_sorted (raw sorted : List DirectoryEntry)
    (h : readDirectory (some raw) = .ok sorted) :
    sorted.Perm raw ∧
    sorted.Pairwise (fun a b =>
      (b.isDirectory = true → a.isDirectory = true) ∧
      (a.isDirectory = b.isDirectory → a.name.data ≤ b.name.data)) ∧
    readDirectory (some []) = .ok [] := by
  have hs : sorted = sortEntries raw := by
    simpa [readDirectory] using h.symm
  subst hs
  refine ⟨List.perm_insertionSort entryLE raw, ?_, rfl⟩
  have hsorted : (sortEntries raw).Pairwise entryLE :=
    List.sorted_insertionSort entryLE raw
  refine hsorted.imp ?_
  intro a b hab
  constructor
  · intro hbdir
    rcases hab with ⟨ha, _⟩ | ⟨hk, _⟩
    · exact ha
    · exact hk.trans hbdir
  · intro hkind
    rcases hab with ⟨ha, hb⟩ | ⟨_, hn⟩
    · rw [ha, hb] at hkind
      exact absurd hkind (by decide)
    · exact hn

/-- C4 witness: the listing `[a.ts (file), .git (dir), B (dir)]` sorts to
`[.git, B, a.ts]`, and the empty directory lists as `ok []`. -/
theorem c4_witness :
    readDirectory (some []) = .ok [] :=
  (c4_listing_sorted [⟨"a.ts", false⟩, ⟨".git", true⟩, ⟨"B", true⟩]
    [⟨".git", true⟩, ⟨"B", true⟩, ⟨"a.ts", false⟩] (by rfl)).2.2

/-- C10 witness: the cache holds the directory `Src`, the user types
`src/x`; the new current directory ends with the typed `src`, not the cached
`Src`. -/
theorem c10_witness :
    NavState.currentDir ⟨["root", "src"], [], " x"⟩ =
      ["root"] ++ [(jsSplit (jsTrim "src/x") '/').headI] :=
  c10_traversal_uses_typed_segment ⟨["root"], [⟨"Src", true⟩], " "⟩ "src/x"
    (some []) ⟨["root", "src"], [], " x"⟩ false (by decide)

/-- C9: the per-file scan records at most one result per line — the result
lines are strictly increasing, hence pairwise distinct — and each recorded
column is 1 plus the index of the *first* occurrence of the case-folded
query in that case-folded line: the query is a prefix of the line's
character list dropped at `column - 1`, and at no earlier index. -/
theorem c9_first_occurrence_per_line (fp : String) (sz : Nat) (isf : Bool)
    (content q : String) :
    (searchFile fp sz isf content q).Pairwise (fun a b => a.line ≠ b.line) ∧
    ∀ r ∈ searchFile fp sz isf content q,
      ∃ l, (jsSplit content '\n').get? (r.line - 1) = some l ∧
        (jsToLower q).data.isPrefixOf ((jsToLower l).data.drop (r.column - 1)) =
          true ∧
        ∀ m < r.column - 1,
          (jsToLower q).data.isPrefixOf ((jsToLower l).data.drop m) = false := by
  unfold searchFile
  split
  · simp
  · split
    · simp
    · split
      · simp
      · constructor
        · exact (scanLines_pairwise fp q (jsSplit content '\n') 0
            MAX_MATCHES_PER_FILE).imp (fun h => Nat.ne_of_lt h)
        · intro r hr
          obtain ⟨h1, h2, h3, l, h4, h5, h6⟩ := scanLines_mem hr
          refine ⟨l, by simpa using h4, ?_, ?_⟩
          · exact (firstIndexOf_spec h6).1
          · exact (firstIndexOf_spec h6).2

/-- C9 witness: in `func a\nnope\nfunc b` the recorded match on line 1 is
the first occurrence of `func` in that line. -/
theorem c9_witness :
    ∃ l, (jsSplit "func a\nnope\nfunc b" '\n').get?
          ((⟨"f1", 1, 1, "func a"⟩ : SearchResult).line - 1) = some l ∧
      (jsToLower "func").data.isPrefixOf
          ((jsToLower l).data.drop
            ((⟨"f1", 1, 1, "func a"⟩ : SearchResult).column - 1)) = true ∧
      ∀ m < (⟨"f1", 1, 1, "func a"⟩ : SearchResult).column - 1,
        (jsToLower "func").data.isPrefixOf ((jsToLower l).data.drop m) = false :=
  (c9_first_occurrence_per_line "f1" 18 true "func a\nnope\nfunc b" "func").2
    ⟨"f1", 1, 1, "func a"⟩ (by decide)

set_option maxRecDepth 100000 in
/-- C6: each file contributes at most `MAX_MATCHES_PER_FILE` results, in
strictly ascending line order, with 1-based line and column and the trimmed
line as content; on the Scenario-2 candidate set with query `func`, the
committed results number 2 + 0 + 10 = 12, and `file3` contributes exactly
its first 10 matching lines in line order. -/
theorem c6_per_file_cap_and_scenario :
    (∀ fp sz isf content q,
      (searchFile fp sz isf content q).length ≤ MAX_MATCHES_PER_FILE ∧
      (searchFile fp sz isf content q).Pairwise (fun a b => a.line < b.line) ∧
      ∀ r ∈ searchFile fp sz isf content q,
        1 ≤ r.line ∧ 1 ≤ r.column ∧
        ∃ l, (jsSplit content '\n').get? (r.line - 1) = some l ∧
          r.content = jsTrim l) ∧
    (performSearchResults scenarioFiles "func").length = 12 ∧
    (performSearchResults scenarioFiles "func").take 2 =
      [⟨"file1", 1, 1, "func a"⟩, ⟨"file1", 3, 1, "func b"⟩] ∧
    (performSearchResults scenarioFiles "func").drop 2 =
      [⟨"file3", 1, 1, "func 1"⟩, ⟨"file3", 2, 1, "func 2"⟩,
       ⟨"file3", 3, 1, "func 3"⟩, ⟨"file3", 4, 1, "func 4"⟩,
       ⟨"file3", 5, 1, "func 5"⟩, ⟨"file3", 6, 1, "func 6"⟩,
       ⟨"file3", 7, 1, "func 7"⟩, ⟨"file3", 8, 1, "func 8"⟩,
       ⟨"file3", 9, 1, "func 9"⟩, ⟨"file3", 10, 1, "func 10"⟩] := by
  refine ⟨?_, by decide, by decide, by decide⟩
  intro fp sz isf content q
  refine ⟨?_, ?_, ?_⟩
  · unfold searchFile
    split
    · simp
    · split
      · simp
      · split
        · simp
        · exact scanLines_length_le fp q (jsSplit content '\n') 0
            MAX_MATCHES_PER_FILE
  · unfold searchFile
    split
    · simp
    · split
      · simp
      · split
        · simp
        · exact scanLines_pairwise fp q (jsSplit content '\n') 0
            MAX_MATCHES_PER_FILE
  · intro r hr
    unfold searchFile at hr
    split at hr
    · simp at hr
    · split at hr
      · simp at hr
      · split at hr
        · simp at hr
        · obtain ⟨h1, h2, h3, l, h4, h5, h6⟩ := scanLines_mem hr
          exact ⟨h1, h3, l, by simpa using h4, h5⟩

/-- C6 witness: the per-file cap instantiated on the scenario's `file3`
contents. -/
theorem c6_witness :
    (searchFile "file3" 95 true
        "func 1\nfunc 2\nfunc 3\nfunc 4\nfunc 5\nfunc 6\nfunc 7\nfunc 8\nfunc 9\nfunc 10\nfunc 11\nfunc 12"
        "func").length ≤ MAX_MATCHES_PER_FILE :=
  (c6_per_file_cap_and_scenario.1 "file3" 95 true
    "func 1\nfunc 2\nfunc 3\nfunc 4\nfunc 5\nfunc 6\nfunc 7\nfunc 8\nfunc 9\nfunc 10\nfunc 11\nfunc 12"
    "func").1

/-- C7: an accepted, non-existing create request containing a separator and
not ending in one creates every intermediate segment as a directory
(recursively), creates an empty file at the full joined path, and opens that
file. -/
theorem c7_create_nested_roundtrip (fs : FS) (cur : List String)
    (input : String)
    (hsep : jsContainsChar input '/' = true)
    (hslash : jsEndsWith input "/" = false)
    (hnew : pathExists fs (joinPath cur input) = false) :
    (handleCreate fs cur input).2 = .openedFile (joinPath cur input) ∧
    joinPath cur input ∈ (handleCreate fs cur input).1.files ∧
    ∀ k, 1 ≤ k → k < (splitPath input).length →
      cur ++ (splitPath input).take k ∈ (handleCreate fs cur input).1.dirs := by
  have hnew' : pathExists fs (cur ++ splitPath input) = false := by
    simpa [joinPath] using hnew
  have hred : handleCreate fs cur input =
      (writeFile (mkdirRecursive fs ((cur ++ splitPath input).dropLast))
        (cur ++ splitPath input), .openedFile (cur ++ splitPath input)) := by
    simp [handleCreate, joinPath, hnew', hslash, hsep]
  refine ⟨by rw [hred]; rfl, ?_, ?_⟩
  · rw [hred]
    simp [writeFile, mkdirRecursive, joinPath]
  · intro k hk1 hk2
    have hseg : splitPath input ≠ [] := by
      intro h0
      rw [h0] at hk2
      simp at hk2
    rw [hred]
    simp only [writeFile, mkdirRecursive]
    refine List.mem_append_right _ ?_
    rw [List.dropLast_append_of_ne_nil cur hseg]
    simp only [pathPrefixes, List.mem_map, List.mem_range]
    refine ⟨cur.length + k - 1, ?_, ?_⟩
    · simp only [List.length_append, List.length_dropLast]
      omega
    · have h1 : cur.length + k - 1 + 1 = cur.length + k := by omega
      rw [h1, List.take_append]
      congr 1
      rw [List.dropLast_eq_take, List.take_take,
        Nat.min_eq_left (by omega)]

/-- C7 witness: creating `a/b/c.txt` from `D` opens the file
`D/a/b/c.txt` and leaves `D/a` and `D/a/b` existing as directories. -/
theorem c7_witness :
    (handleCreate ⟨[["D"]], []⟩ ["D"] "a/b/c.txt").2 =
        .openedFile (joinPath ["D"] "a/b/c.txt") ∧
    joinPath ["D"] "a/b/c.txt" ∈
        (handleCreate ⟨[["D"]], []⟩ ["D"] "a/b/c.txt").1.files ∧
    ["D"] ++ (splitPath "a/b/c.txt").take 1 ∈
        (handleCreate ⟨[["D"]], []⟩ ["D"] "a/b/c.txt").1.dirs ∧
    ["D"] ++ (splitPath "a/b/c.txt").take 2 ∈
        (handleCreate ⟨[["D"]], []⟩ ["D"] "a/b/c.txt").1.dirs := by
  have h := c7_create_nested_roundtrip ⟨[["D"]], []⟩ ["D"] "a/b/c.txt"
    (by decide) (by decide) (by decide)
  exact ⟨h.1, h.2.1, h.2.2 1 (by decide) (by decide),
    h.2.2 2 (by decide) (by decide)⟩

end DFiles
